import Mathlib

set_option maxRecDepth 100000

/-!
Verification of the fledge build engine (volantvm/fledge) against its
natural-language specification.

The Go source is shallowly embedded: paths and strings are lists of
characters (or lists of path components), file modes are natural numbers
holding the Unix permission bits, `int` fields that may be negative are
`Int`, and fallible operations return `Except String`.  Every definition
in the first part of the file is translated from a named function of the
source tree; definitions whose name starts with `spec` are instead
written from the specification's words, for refinement comparisons.
-/

/-! ## String helpers (Go strings / path/filepath, restricted to what the
source uses).  Strings are `List Char`; all inputs in this development are
ASCII, where Go's Unicode case folding coincides with ASCII folding. -/

/-- Go strings.HasPrefix on character lists. -/
def goHasPref (s p : List Char) : Bool :=
  p.isPrefixOf s

/-- Go strings.TrimSuffix on character lists. -/
def goTrimSuf (s suf : List Char) : List Char :=
  if suf.isSuffixOf s then s.take (s.length - suf.length) else s

/-- Go strings.Contains on character lists. -/
def goContains (s sub : List Char) : Bool :=
  match s with
  | [] => sub.isPrefixOf []
  | _ :: t => sub.isPrefixOf s || goContains t sub

/-- Helper for filepath.Ext: scans the reversed path, accumulating the
candidate extension until the last dot of the final path element. -/
def goExtRev : List Char → List Char → List Char
  | [], _ => []
  | c :: rest, acc =>
    if c = '.' then '.' :: acc
    else if c = '/' then []
    else goExtRev rest (c :: acc)

/-- Go path/filepath.Ext: the suffix of the final path element beginning at
its last dot, or empty when the final element has no dot. -/
def goExt (s : List Char) : List Char :=
  goExtRev s.reverse []

/-- ASCII lowercase folding of one character (Go strings.ToLower restricted
to ASCII input). -/
def asciiLowerChar (c : Char) : Char :=
  if 'A' ≤ c ∧ c ≤ 'Z' then Char.ofNat (c.toNat + 32) else c

/-- ASCII lowercase folding of a character list. -/
def asciiLower (s : List Char) : List Char :=
  s.map asciiLowerChar

/-- Go path/filepath.IsAbs on Linux: the path starts with a slash. -/
def isAbsPath (t : String) : Bool :=
  match t.toList with
  | '/' :: _ => true
  | _ => false

/-! ## File mapping engine (internal/builder mapping code, src/unnamed/part_004). -/

/-- FHS executable path list, verbatim from the source's
fhsExecutablePaths variable. -/
def fhsExecutablePaths : List (List Char) :=
  ["/bin/".toList, "/sbin/".toList, "/usr/bin/".toList, "/usr/sbin/".toList,
   "/usr/local/bin/".toList, "/usr/local/sbin/".toList,
   "/opt/bin/".toList, "/opt/sbin/".toList]

/-- FHS library path list, verbatim from the source's fhsLibraryPaths
variable. -/
def fhsLibraryPaths : List (List Char) :=
  ["/lib/".toList, "/lib64/".toList, "/usr/lib/".toList, "/usr/lib64/".toList,
   "/usr/local/lib/".toList, "/usr/local/lib64/".toList]

/-- Source isInFHSExecutablePath: some executable path entry is a strict
path ancestor of the argument, or equals it once the trailing slash is
trimmed. -/
def isInFHSExecutablePath (path : List Char) : Bool :=
  fhsExecutablePaths.any (fun p =>
    goHasPref path p || path == goTrimSuf p ['/'])

/-- Source isInFHSLibraryPath: a library path entry matches as above AND
the lowercased extension of the whole path equals ".so", or the whole path
contains the substring ".so." somewhere (the source checks the full path,
not only the basename). -/
def isInFHSLibraryPath (path : List Char) : Bool :=
  fhsLibraryPaths.any (fun p =>
    (goHasPref path p || path == goTrimSuf p ['/']) &&
    (asciiLower (goExt path) == ".so".toList || goContains path ".so.".toList))

/-- Source normalizeExecutableMode: when any execute bit is present, keep
the read/write bits and grant each class the execute bit exactly when it
has the read bit; otherwise return the mode unchanged. -/
def normalizeExecutableMode (mode : Nat) : Nat :=
  if mode &&& 0o111 ≠ 0 then
    let newMode := mode &&& 0o666
    let newMode := if mode &&& 0o400 ≠ 0 then newMode ||| 0o100 else newMode
    let newMode := if mode &&& 0o040 ≠ 0 then newMode ||| 0o010 else newMode
    let newMode := if mode &&& 0o004 ≠ 0 then newMode ||| 0o001 else newMode
    newMode
  else mode

/-- Source DetermineFileMode: resolve the installed file mode from the
destination path, the source's permission bits, and whether the source is
a directory. -/
def DetermineFileMode (destPath : List Char) (mode : Nat) (isDir : Bool) : Nat :=
  if isDir then 0o755
  else if mode &&& 0o111 ≠ 0 then normalizeExecutableMode mode
  else if isInFHSExecutablePath destPath then 0o755
  else if isInFHSLibraryPath destPath then 0o755
  else 0o644

/-! ## Specification-side mode policy (spec section 4.2), for refinement
comparison with DetermineFileMode.  These definitions follow the
specification's words, not the source. -/

/-- Basename of a path: the part after the last slash. -/
def specBasename (s : List Char) : List Char :=
  (s.reverse.takeWhile (fun c => c ≠ '/')).reverse

/-- Spec rule 2 normalization per octal permission digit: keep read and
write, and set execute exactly when read is set. -/
def specNormDigit (d : Nat) : Nat :=
  (d &&& 6) ||| (if d &&& 4 ≠ 0 then 1 else 0)

/-- Spec rule 2 normalization: each of the owner, group and other classes
has the execute bit exactly when it has the read bit. -/
def specNormalize (m : Nat) : Nat :=
  specNormDigit (m / 64 % 8) * 64 + specNormDigit (m / 8 % 8) * 8 + specNormDigit (m % 8)

/-- A destination lies under a directory path: the slash-terminated path
leads it, or the destination names that directory itself. -/
def specUnderDir (path p : List Char) : Bool :=
  goHasPref path p || path == goTrimSuf p ['/']

/-- The FHS executable directory set enumerated by the spec. -/
def specExecPrefixes : List (List Char) :=
  ["/bin/".toList, "/sbin/".toList, "/usr/bin/".toList, "/usr/sbin/".toList,
   "/usr/local/bin/".toList, "/usr/local/sbin/".toList,
   "/opt/bin/".toList, "/opt/sbin/".toList]

/-- The FHS library directory set enumerated by the spec. -/
def specLibPrefixes : List (List Char) :=
  ["/lib/".toList, "/lib64/".toList, "/usr/lib/".toList, "/usr/lib64/".toList,
   "/usr/local/lib/".toList, "/usr/local/lib64/".toList]

/-- Spec rule 3 guard: the destination lies under an FHS executable path. -/
def specUnderExec (path : List Char) : Bool :=
  specExecPrefixes.any (specUnderDir path)

/-- Spec rule 4 location guard: the destination lies under an FHS library
path. -/
def specUnderLib (path : List Char) : Bool :=
  specLibPrefixes.any (specUnderDir path)

/-- The five-rule mode policy exactly as the claim states it: rule 4 asks
that the BASENAME of the destination contain ".so" (as suffix or infix). -/
def specFileModeClaimed (destPath : List Char) (mode : Nat) (isDir : Bool) : Nat :=
  if isDir then 0o755
  else if mode &&& 0o111 ≠ 0 then specNormalize mode
  else if specUnderExec destPath then 0o755
  else if specUnderLib destPath && goContains (specBasename destPath) ".so".toList then 0o755
  else 0o644

/-- The five-rule mode policy with rule 4 amended to what the source
checks: the lowercased extension of the whole destination path equals
".so", or the whole destination path contains ".so." somewhere. -/
def specFileModeAmended (destPath : List Char) (mode : Nat) (isDir : Bool) : Nat :=
  if isDir then 0o755
  else if mode &&& 0o111 ≠ 0 then specNormalize mode
  else if specUnderExec destPath then 0o755
  else if specUnderLib destPath &&
      (asciiLower (goExt destPath) == ".so".toList || goContains destPath ".so.".toList) then 0o755
  else 0o644

/-! ## Copy engine model (CopyFile / CopyDirectory of src/unnamed/part_004).

The host filesystem boundary is explicit: what the source sees through
os.ReadDir / entry.Info (lstat) is a tree of entries, and what os.Open
returns (which FOLLOWS symlinks, resolving them in the OS) is an oracle
from paths to file contents.  The copy emits a list of effects; the
source code contains no os.Symlink call, so only directory creations and
regular-file writes can appear. -/

/-- One observable filesystem effect of the copy engine. -/
inductive Effect where
  | mkdir (p : List String)
  | fileWritten (p : List String) (data : List Nat) (mode : Nat)
  | symlinkCreated (p : List String) (target : String)
deriving DecidableEq

/-- Whether an effect creates a symlink. -/
def Effect.isSymlinkCreated : Effect → Bool
  | Effect.symlinkCreated _ _ => true
  | _ => false

/-- A source subtree as os.ReadDir and lstat present it: regular files and
symlinks carry their lstat permission bits (a Linux symlink reports 0777);
directories carry named children. -/
inductive FTree where
  | file (perm : Nat)
  | symlink (perm : Nat)
  | dir (entries : List (String × FTree))

/-- Render a component path as the slash-separated string the source
passes to DetermineFileMode. -/
def renderPath (ps : List String) : List Char :=
  ps.foldl (fun acc s => acc ++ '/' :: s.toList) []

/-- Source CopyFile: create the parent directory, open the source path
(following symlinks, hence the oracle), and write the contents to a fresh
regular file with the given mode.  On an open failure the copy aborts. -/
def CopyFile (openf : List String → Option (List Nat)) (src dst : List String)
    (mode : Nat) : Except String (List Effect) :=
  match openf src with
  | none => Except.error "failed to open source"
  | some data => Except.ok [Effect.mkdir dst.dropLast, Effect.fileWritten dst data mode]

/-- Source CopyDirectory's recursion over the entries of one directory:
subdirectories recurse (each recursive call first creates its destination
directory), everything else goes through CopyFile with the mode resolved
by DetermineFileMode from the destination path and the lstat info.  The
fuel argument only bounds the recursion depth for Lean; the source's
recursion is over the same finite tree. -/
def copyEntriesGo (openf : List String → Option (List Nat)) :
    Nat → List String → List String → List (String × FTree) → Except String (List Effect)
  | 0, _, _, _ => Except.error "fuel exhausted"
  | Nat.succ fuel, src, dst, entries =>
    match entries with
    | [] => Except.ok []
    | (name, t) :: rest =>
      let one : Except String (List Effect) :=
        match t with
        | FTree.dir sub =>
          match copyEntriesGo openf fuel (src ++ [name]) (dst ++ [name]) sub with
          | Except.error e => Except.error e
          | Except.ok effs => Except.ok (Effect.mkdir (dst ++ [name]) :: effs)
        | FTree.file perm =>
          CopyFile openf (src ++ [name]) (dst ++ [name])
            (DetermineFileMode (renderPath (dst ++ [name])) perm false)
        | FTree.symlink perm =>
          CopyFile openf (src ++ [name]) (dst ++ [name])
            (DetermineFileMode (renderPath (dst ++ [name])) perm false)
      match one with
      | Except.error e => Except.error e
      | Except.ok e1 =>
        match copyEntriesGo openf fuel src dst rest with
        | Except.error e => Except.error e
        | Except.ok e2 => Except.ok (e1 ++ e2)

/-- Source CopyDirectory: create the destination directory, then copy each
entry. -/
def CopyDirectory (openf : List String → Option (List Nat)) (fuel : Nat)
    (src dst : List String) (entries : List (String × FTree)) :
    Except String (List Effect) :=
  match copyEntriesGo openf fuel src dst entries with
  | Except.error e => Except.error e
  | Except.ok effs => Except.ok (Effect.mkdir dst :: effs)

/-- Concrete source tree for the symlink claims: one directory holding a
single symlink named link whose target string is file. -/
def symTree : List (String × FTree) := [("link", FTree.symlink 0o777)]

/-- Concrete open oracle: opening s/link follows the symlink and yields the
target file's bytes. -/
def symOpen : List String → Option (List Nat) :=
  fun p => if p = ["s", "link"] then some [7, 8] else none

/-! ## Configuration model (internal/config: schema from src/unnamed/part_001,
load pipeline from src/internal/config/config.go).  TOML parsing is outside
the model: Load here is the post-parse pipeline applyDefaults + Validate. -/

/-- Source AgentConfig. -/
structure AgentConfig where
  SourceStrategy : String
  Version : String
  Path : String
  URL : String
  Checksum : String
deriving DecidableEq

/-- Source InitConfig. -/
structure InitConfig where
  Path : String
  None : Bool
deriving DecidableEq

/-- Source SourceConfig (BuildArgs omitted: no modelled code reads it). -/
structure SourceConfig where
  Image : String
  Dockerfile : String
  Context : String
  Target : String
  BusyboxURL : String
  BusyboxSHA256 : String
deriving DecidableEq

/-- Source FilesystemConfig; the Go field Type is FsType here (Type is a
Lean keyword). -/
structure FilesystemConfig where
  FsType : String
  SizeBufferMB : Int
  Preallocate : Bool
  CompressionLevel : Int
  OverlaySize : String
deriving DecidableEq

/-- Source Config. -/
structure Config where
  Version : String
  Strategy : String
  Agent : Option AgentConfig
  Init : Option InitConfig
  Source : SourceConfig
  Filesystem : Option FilesystemConfig
  Mappings : List (String × String)
deriving DecidableEq

/-- Source DefaultFilesystemConfig. -/
def DefaultFilesystemConfig : FilesystemConfig :=
  { FsType := "squashfs", CompressionLevel := 15, OverlaySize := "1G",
    SizeBufferMB := 0, Preallocate := false }

/-- Source DefaultAgentConfig. -/
def DefaultAgentConfig : AgentConfig :=
  { SourceStrategy := "release", Version := "latest", Path := "", URL := "", Checksum := "" }

/-- Source getInitMode. -/
def getInitMode (cfg : Config) : String :=
  match cfg.Init with
  | none => "default"
  | some i => if i.None then "none" else if i.Path ≠ "" then "custom" else "default"

/-- applyDefaults, agent part: default agent only for initramfs in default
init mode. -/
def applyAgentDefault (cfg : Config) : Config :=
  if cfg.Strategy = "initramfs" ∧ cfg.Agent = none ∧ getInitMode cfg = "default" then
    { cfg with Agent := some DefaultAgentConfig }
  else cfg

/-- applyDefaults, busybox part: pinned URL and SHA for initramfs when the
recipe leaves them empty. -/
def applyBusyboxDefaults (cfg : Config) : Config :=
  if cfg.Strategy = "initramfs" then
    let s1 := if cfg.Source.BusyboxURL = "" then
        { cfg.Source with BusyboxURL := "https://busybox.net/downloads/binaries/1.35.0-x86_64-linux-musl/busybox" }
      else cfg.Source
    let s2 := if s1.BusyboxSHA256 = "" then
        { s1 with BusyboxSHA256 := "6e123e7f3202a8c1e9b1f94d8941580a25135382b99e8d3e34fb858bba311348" }
      else s1
    { cfg with Source := s2 }
  else cfg

/-- applyDefaults, filesystem part: full default config when the section is
absent, field-wise defaults (type, then squashfs level and overlay size,
then legacy size buffer) when present. -/
def applyFilesystemDefaults (cfg : Config) : Config :=
  if cfg.Strategy = "oci_rootfs" then
    match cfg.Filesystem with
    | none => { cfg with Filesystem := some DefaultFilesystemConfig }
    | some fs =>
      let fs1 := if fs.FsType = "" then { fs with FsType := DefaultFilesystemConfig.FsType } else fs
      let fs2 :=
        if fs1.FsType = "squashfs" then
          let a := if fs1.CompressionLevel = 0 then
              { fs1 with CompressionLevel := DefaultFilesystemConfig.CompressionLevel }
            else fs1
          if a.OverlaySize = "" then { a with OverlaySize := DefaultFilesystemConfig.OverlaySize } else a
        else fs1
      let fs3 := if fs2.SizeBufferMB = 0 then
          { fs2 with SizeBufferMB := DefaultFilesystemConfig.SizeBufferMB }
        else fs2
      { cfg with Filesystem := some fs3 }
  else cfg

/-- Source applyDefaults: agent, busybox, then filesystem defaults. -/
def applyDefaults (cfg : Config) : Config :=
  applyFilesystemDefaults (applyBusyboxDefaults (applyAgentDefault cfg))

/-- Source validateAgentConfig. -/
def validateAgentConfig (agent : AgentConfig) : Except String Unit :=
  if agent.SourceStrategy = "" then Except.error "agent.source_strategy is required"
  else if agent.SourceStrategy = "release" then
    (if agent.Version = "" then Except.error "agent.version is required" else Except.ok ())
  else if agent.SourceStrategy = "local" then
    (if agent.Path = "" then Except.error "agent.path is required" else Except.ok ())
  else if agent.SourceStrategy = "http" then
    (if agent.URL = "" then Except.error "agent.url is required" else Except.ok ())
  else Except.error "invalid agent.source_strategy"

/-- Source validateInitConfig: none and path are mutually exclusive (the
inner empty-path re-check of the source is dead code). -/
def validateInitConfig (cfg : Config) : Except String Unit :=
  match cfg.Init with
  | none => Except.ok ()
  | some i =>
    if i.None ∧ i.Path ≠ "" then Except.error "init cannot specify both none and path"
    else Except.ok ()

/-- Source validateInitramfs: init constraints, then agent presence rules
per init mode. -/
def validateInitramfs (cfg : Config) : Except String Unit :=
  match validateInitConfig cfg with
  | Except.error e => Except.error e
  | Except.ok _ =>
    if getInitMode cfg = "default" then
      match cfg.Agent with
      | none => Except.error "agent section is required for default init mode"
      | some a => validateAgentConfig a
    else if getInitMode cfg = "custom" then
      match cfg.Agent with
      | some _ => Except.error "agent cannot be specified with custom init mode"
      | none => Except.ok ()
    else if getInitMode cfg = "none" then
      match cfg.Agent with
      | some _ => Except.error "agent cannot be specified with no-init mode"
      | none => Except.ok ()
    else Except.ok ()

/-- Source validateOCIRootfs. -/
def validateOCIRootfs (cfg : Config) : Except String Unit :=
  if cfg.Source.Image = "" ∧ cfg.Source.Dockerfile = "" then
    Except.error "either source.image or source.dockerfile is required"
  else if cfg.Source.Image ≠ "" ∧ cfg.Source.Dockerfile ≠ "" then
    Except.error "only one of source.image or source.dockerfile may be specified"
  else
    match cfg.Filesystem with
    | none => Except.error "filesystem section is required"
    | some fs =>
      if ¬ (fs.FsType = "squashfs" ∨ fs.FsType = "ext4" ∨ fs.FsType = "xfs" ∨ fs.FsType = "btrfs") then
        Except.error "invalid filesystem type"
      else if fs.FsType = "squashfs" ∧ (fs.CompressionLevel < 0 ∨ fs.CompressionLevel > 22) then
        Except.error "squashfs compression_level must be between 0-22"
      else if fs.FsType = "squashfs" ∧ fs.OverlaySize = "" then
        Except.error "squashfs overlay_size is required"
      else if fs.SizeBufferMB < 0 then
        Except.error "filesystem.size_buffer_mb must be non-negative"
      else Except.ok ()

/-- Source validateMappings: non-empty source, non-empty absolute
destination free of dotdot. -/
def validateMappings : List (String × String) → Except String Unit
  | [] => Except.ok ()
  | (src, dst) :: rest =>
    if src = "" then Except.error "mapping source path cannot be empty"
    else if dst = "" then Except.error "mapping destination cannot be empty"
    else if ¬ isAbsPath dst then Except.error "mapping destination must be an absolute path"
    else if goContains dst.toList "..".toList then Except.error "mapping destination contains dotdot"
    else validateMappings rest

/-- Source Validate: version and strategy checks, strategy-specific
validation, then mappings. -/
def Validate (cfg : Config) : Except String Unit :=
  if cfg.Version = "" then Except.error "version field is required"
  else if cfg.Version ≠ "1" then Except.error "unsupported config version"
  else if cfg.Strategy = "" then Except.error "strategy field is required"
  else if cfg.Strategy ≠ "oci_rootfs" ∧ cfg.Strategy ≠ "initramfs" then
    Except.error "invalid strategy"
  else
    match (if cfg.Strategy = "oci_rootfs" then validateOCIRootfs cfg
           else if cfg.Strategy = "initramfs" then validateInitramfs cfg
           else Except.ok ()) with
    | Except.error e => Except.error e
    | Except.ok _ => validateMappings cfg.Mappings

/-- Source Load after TOML parsing: apply defaults, validate, return the
defaulted config. -/
def Load (cfg : Config) : Except String Config :=
  match Validate (applyDefaults cfg) with
  | Except.error e => Except.error e
  | Except.ok _ => Except.ok (applyDefaults cfg)

/-- A concrete oci_rootfs + squashfs recipe parameterized by the written
compression level, for the boundary checks. -/
def sqRecipe (level : Int) : Config :=
  { Version := "1", Strategy := "oci_rootfs", Agent := none, Init := none,
    Source := { Image := "alpine", Dockerfile := "", Context := "", Target := "",
                BusyboxURL := "", BusyboxSHA256 := "" },
    Filesystem := some { FsType := "squashfs", SizeBufferMB := 0, Preallocate := false,
                         CompressionLevel := level, OverlaySize := "" },
    Mappings := [] }

/-- The stored compression level of a loaded recipe. -/
def loadedLevel (cfg : Config) : Option Int :=
  match Load cfg with
  | Except.ok c =>
    match c.Filesystem with
    | some fs => some fs.CompressionLevel
    | none => none
  | Except.error _ => none

/-- An all-empty source section. -/
def emptySource : SourceConfig :=
  { Image := "", Dockerfile := "", Context := "", Target := "",
    BusyboxURL := "", BusyboxSHA256 := "" }

/-- Concrete initramfs recipe: custom init plus an agent section. -/
def customInitAgentRecipe : Config :=
  { Version := "1", Strategy := "initramfs", Agent := some DefaultAgentConfig,
    Init := some { Path := "./my-init", None := false },
    Source := emptySource, Filesystem := none, Mappings := [] }

/-- Concrete initramfs recipe: no-init mode plus an agent section. -/
def noneInitAgentRecipe : Config :=
  { Version := "1", Strategy := "initramfs", Agent := some DefaultAgentConfig,
    Init := some { Path := "", None := true },
    Source := emptySource, Filesystem := none, Mappings := [] }

/-- Concrete post-default initramfs config in default init mode with no
agent section. -/
def defaultNoAgentConfig : Config :=
  { Version := "1", Strategy := "initramfs", Agent := none, Init := none,
    Source := emptySource, Filesystem := none, Mappings := [] }

/-! ## Block-image sizing and ext4 shrink (internal/builder/oci_rootfs.go). -/

/-- Source computeBufferMB: the explicit size_buffer_mb when positive,
otherwise a quarter of the rootfs size in MB clamped to [64, 1024]. -/
def computeBufferMB (sizeBufferMB : Int) (rootfsKB : Nat) : Nat :=
  if sizeBufferMB > 0 then sizeBufferMB.toNat
  else
    let sizeMB := rootfsKB / 1024
    let bufferMB := sizeMB / 4
    let bufferMB := if bufferMB < 64 then 64 else bufferMB
    if bufferMB > 1024 then 1024 else bufferMB

/-- Source createImageFile size arithmetic: total KB is the measured
rootfs KB plus the buffer converted to KB. -/
def totalSizeKB (sizeBufferMB : Int) (rootfsKB : Nat) : Nat :=
  rootfsKB + computeBufferMB sizeBufferMB rootfsKB * 1024

/-- Source createImageFile allocation: fallocate is invoked with
totalSizeKB × 1024 bytes; the sparse dd path seeks totalSizeKB blocks of
1 KB, so both produce a file of the same byte length. -/
def allocatedImageBytes (preallocate : Bool) (sizeBufferMB : Int) (rootfsKB : Nat) : Nat :=
  if preallocate then totalSizeKB sizeBufferMB rootfsKB * 1024
  else totalSizeKB sizeBufferMB rootfsKB * 1024

/-- Outcome of the ext4 shrink step: the resize2fs target when a resize
is issued, and the byte length the backing file is truncated to. -/
structure ShrinkResult where
  resizeTo : Option Nat
  truncateTo : Nat
deriving DecidableEq

/-- Source shrinkFilesystem (ext4 branch, after parsing dumpe2fs and
resize2fs -P output): recompute the buffer from the re-measured rootfs
size, convert it to blocks (at least one), cap the desired block count at
the current count, resize only when strictly below the current count, and
truncate the backing file to desired × blockSize bytes. -/
def shrinkFilesystem (sizeBufferMB : Int) (rootfsKB : Nat)
    (curBlocks blockSize minBlocks : Nat) : ShrinkResult :=
  let bufferMB := computeBufferMB sizeBufferMB rootfsKB
  let bufBlocks := bufferMB * 1024 * 1024 / blockSize
  let bufBlocks := if bufBlocks < 1 then 1 else bufBlocks
  let desiredBlocks := minBlocks + bufBlocks
  let desiredBlocks := if desiredBlocks > curBlocks then curBlocks else desiredBlocks
  { resizeTo := if desiredBlocks < curBlocks then some desiredBlocks else none,
    truncateTo := desiredBlocks * blockSize }

/-! ## Agent install destination safety (ensureDestDir /
resolveSymlinkTarget of internal/builder/oci_rootfs.go).  Absolute host
paths are lists of components; resolution is lexical, exactly as the
source's filepath.Join / filepath.Clean / filepath.Rel chain is. -/

/-- Split a string at slashes into raw components. -/
def splitSlashAux (cs : List Char) (acc : List Char) : List String :=
  match cs with
  | [] => [String.mk acc.reverse]
  | c :: rest =>
    if c = '/' then String.mk acc.reverse :: splitSlashAux rest []
    else splitSlashAux rest (c :: acc)

/-- Raw slash-separated components of a path string. -/
def splitComponents (t : String) : List String :=
  splitSlashAux t.toList []

/-- Lexical cleaning of an absolute path given as components: empty and
dot components vanish, dotdot pops the previous component (or vanishes at
the root), as filepath.Clean does on an absolute path. -/
def cleanAbs (comps : List String) : List String :=
  comps.foldl (fun acc c =>
    if c = "" ∨ c = "." then acc
    else if c = ".." then acc.dropLast
    else acc ++ [c]) []

/-- Source resolveSymlinkTarget: an absolute link target is re-rooted at
the rootfs (Join after trimming the leading slash); a relative target is
joined to the link's directory; both are cleaned lexically. -/
def resolveSymlinkTarget (rootfsPath linkPath : List String) (target : String) :
    List String :=
  if isAbsPath target then cleanAbs (rootfsPath ++ splitComponents target)
  else cleanAbs (linkPath.dropLast ++ splitComponents target)

/-- Strip the longest common leading run of two component lists, as
filepath.Rel does on two cleaned absolute paths. -/
def dropCommon : List String → List String → List String × List String
  | a :: as, b :: bs => if a = b then dropCommon as bs else (a :: as, b :: bs)
  | as, bs => (as, bs)

/-- The source's escape test on filepath.Rel's result: rel is ".." or
starts with "../" exactly when the base has components left after the
common run is stripped. -/
def relOutside (base target : List String) : Bool :=
  (dropCommon base target).1 ≠ []

/-- What os.Lstat reports for the rootfs /bin entry. -/
inductive LstatResult where
  | symlinkTo (target : String)
  | dirExists
  | fileExists
  | notExist
  | statError

/-- A directory-creation effect of ensureDestDir. -/
inductive DirEffect where
  | mkdirAll (p : List String)
deriving DecidableEq

/-- Source ensureDestDir: an in-rootfs symlink target directory is
created, an out-of-rootfs symlink is rejected with no effect, an existing
directory passes, a non-directory or stat failure is an error, a missing
/bin is created. -/
def ensureDestDir (rootfsPath binDir : List String) (st : LstatResult) :
    Except String (List DirEffect) :=
  match st with
  | LstatResult.symlinkTo target =>
    let targetPath := resolveSymlinkTarget rootfsPath binDir target
    if relOutside rootfsPath targetPath then
      Except.error "symlink points outside rootfs"
    else
      Except.ok [DirEffect.mkdirAll targetPath]
  | LstatResult.dirExists => Except.ok []
  | LstatResult.fileExists => Except.error "/bin path exists but is not a directory"
  | LstatResult.notExist => Except.ok [DirEffect.mkdirAll binDir]
  | LstatResult.statError => Except.error "failed to inspect /bin directory"

/-! ## Initramfs build pipeline (internal/builder/initramfs.go).  The
staged rootfs is a write log of rootfs-relative paths to file bytes; a
later write to the same path shadows an earlier one, as O_TRUNC copies
do.  Steps that do not change file contents (directory creation, busybox
applet symlinks, timestamp normalization, archiving) are not part of the
content state. -/

/-- Write one file into the staged rootfs state. -/
def fsWrite (s : List (String × List Nat)) (k : String) (v : List Nat) :
    List (String × List Nat) :=
  (k, v) :: s

/-- Read one file from the staged rootfs state (most recent write wins). -/
def fsRead (s : List (String × List Nat)) (k : String) : Option (List Nat) :=
  (s.find? (fun p => p.1 = k)).map (fun p => p.2)

/-- Go strings.TrimPrefix(dst, "/"): drop one leading slash if present. -/
def trimLeadingSlash (dst : String) : String :=
  match dst.toList with
  | '/' :: rest => String.mk rest
  | _ => dst

/-- Source ApplyFileMappings over the staged rootfs: each mapping writes
its source bytes to targetDir joined with the slash-trimmed destination,
in order. -/
def ApplyFileMappings (fs0 : List (String × List Nat))
    (ms : List (String × List Nat)) : List (String × List Nat) :=
  ms.foldl (fun s m => fsWrite s (trimLeadingSlash m.1) m.2) fs0

/-- Source InitramfsBuilder.Build content writes, in program order: the
init-mode branch (default compiles init to /init and installs the agent
at /bin/kestrel; custom copies the user init to /init; none writes
nothing), then busybox to /bin/busybox, then the user mappings. -/
def InitramfsBuild (initMode : String)
    (compiledInit customInit agentBytes busyboxBytes : List Nat)
    (ms : List (String × List Nat)) : List (String × List Nat) :=
  let s0 : List (String × List Nat) := []
  let s1 :=
    if initMode = "default" then
      fsWrite (fsWrite s0 "init" compiledInit) "bin/kestrel" agentBytes
    else if initMode = "custom" then fsWrite s0 "init" customInit
    else s0
  let s2 := fsWrite s1 "bin/busybox" busyboxBytes
  ApplyFileMappings s2 ms

/-! ## CPIO newc archive emission (createArchive of
internal/builder/initramfs.go).  createArchive pipes find through
cpio -o --format=newc; a newc header is thirteen 8-digit hex fields after
the magic, and the SECOND field is the entry's inode number as stat
reports it — a property of the scratch filesystem, not of the recipe,
agent bytes, busybox bytes or compiler. -/

/-- The source's reproducible-build epoch constant (2024-01-01). -/
def ReproducibleEpoch : Nat := 1704067200

/-- One lowercase hex digit. -/
def hexDigit (n : Nat) : Char :=
  if n < 10 then Char.ofNat (48 + n) else Char.ofNat (87 + n)

/-- Eight-digit hexadecimal field of a newc header. -/
def hex8 (n : Nat) : List Char :=
  (List.range 8).map (fun i => hexDigit (n >>> (4 * (7 - i)) &&& 15))

/-- One archive member as cpio's copy-out assembles it from stat. -/
structure CpioEntry where
  name : List Char
  ino : Nat
  mode : Nat
  uid : Nat
  gid : Nat
  nlink : Nat
  mtime : Nat
  filesize : Nat
  devmajor : Nat
  devminor : Nat
  rdevmajor : Nat
  rdevminor : Nat
  data : List Nat
deriving DecidableEq

/-- Zero padding up to the next multiple of four. -/
def pad4 (n : Nat) : Nat := (4 - n % 4) % 4

/-- The newc header: magic 070701, then ino, mode, uid, gid, nlink,
mtime, filesize, devmajor, devminor, rdevmajor, rdevminor, namesize
(including the NUL) and check. -/
def newcHeader (e : CpioEntry) : List Char :=
  "070701".toList ++ hex8 e.ino ++ hex8 e.mode ++ hex8 e.uid ++ hex8 e.gid ++
  hex8 e.nlink ++ hex8 e.mtime ++ hex8 e.filesize ++ hex8 e.devmajor ++
  hex8 e.devminor ++ hex8 e.rdevmajor ++ hex8 e.rdevminor ++
  hex8 (e.name.length + 1) ++ hex8 0

/-- One member's bytes: header, NUL-terminated name padded to a multiple
of four (the header is 110 bytes), then data padded to a multiple of
four. -/
def newcEntryBytes (e : CpioEntry) : List Nat :=
  (newcHeader e).map Char.toNat ++ e.name.map Char.toNat ++ [0] ++
  List.replicate (pad4 (110 + e.name.length + 1)) 0 ++
  e.data ++ List.replicate (pad4 e.data.length) 0

/-- The trailer member ending every cpio archive. -/
def cpioTrailer : CpioEntry :=
  { name := "TRAILER!!!".toList, ino := 0, mode := 0, uid := 0, gid := 0,
    nlink := 1, mtime := 0, filesize := 0, devmajor := 0, devminor := 0,
    rdevmajor := 0, rdevminor := 0, data := [] }

/-- The archive byte stream for a member list. -/
def cpioArchive (es : List CpioEntry) : List Nat :=
  (es.map newcEntryBytes).flatten ++ newcEntryBytes cpioTrailer

/-- The /init member of a minimal build, with every recipe-determined
field fixed (name, mode, normalized mtime, contents) and only the
scratch-filesystem inode number varying between runs. -/
def initEntry (ino : Nat) : CpioEntry :=
  { name := "init".toList, ino := ino, mode := 0o100755, uid := 0, gid := 0,
    nlink := 1, mtime := ReproducibleEpoch, filesize := 4,
    devmajor := 0, devminor := 0, rdevmajor := 0, rdevminor := 0,
    data := [1, 2, 3, 4] }

/-! ## Theorems -/

theorem determineFileMode_test_vectors :
    DetermineFileMode "/bin/myapp".toList 0o644 false = 0o755 ∧
    DetermineFileMode "/lib/libc.so.6".toList 0o644 false = 0o755 ∧
    DetermineFileMode "/lib/notso.txt".toList 0o644 false = 0o644 ∧
    DetermineFileMode "/etc/config.yml".toList 0o644 false = 0o644 ∧
    normalizeExecutableMode 0o744 = 0o755 ∧
    normalizeExecutableMode 0o700 = 0o700 := by
  refine ⟨by decide, by decide, by decide, by decide, by decide, by decide⟩

theorem normalize_eq_specNormalize : ∀ m < 512, m &&& 0o111 ≠ 0 →
    normalizeExecutableMode m = specNormalize m := by
  decide

theorem any_and_const {α : Type} (l : List α) (f : α → Bool) (b : Bool) :
    (l.any fun a => f a && b) = (l.any f && b) := by
  cases b <;> simp

theorem execPath_eq (path : List Char) : isInFHSExecutablePath path = specUnderExec path := rfl

theorem libPath_split (path : List Char) :
    isInFHSLibraryPath path =
      (specUnderLib path &&
        (asciiLower (goExt path) == ".so".toList || goContains path ".so.".toList)) := by
  show (fhsLibraryPaths.any fun p => specUnderDir path p &&
        (asciiLower (goExt path) == ".so".toList || goContains path ".so.".toList)) = _
  rw [any_and_const]
  rfl

/-- C2 (counterexample): at destination path /usr/lib/x.so.d/readme with a
non-executable 0644 source, the source resolves 0755 (the ".so." substring
of a DIRECTORY component of the path triggers the library rule), while the
claimed five-rule policy, whose rule 4 inspects only the basename
("readme"), yields 0644. -/
theorem fileMode_basename_counterexample :
    DetermineFileMode "/usr/lib/x.so.d/readme".toList 0o644 false = 0o755 ∧
    specFileModeClaimed "/usr/lib/x.so.d/readme".toList 0o644 false = 0o644 ∧
    DetermineFileMode "/usr/lib/x.so.d/readme".toList 0o644 false ≠
      specFileModeClaimed "/usr/lib/x.so.d/readme".toList 0o644 false := by
  refine ⟨by decide, by decide, by decide⟩

/-- C2 (amended): the resolved mode follows the five-rule precedence, with
rule 4 checking the WHOLE destination path: a destination under an FHS
library path yields 0755 when the path's lowercased extension is ".so" or
the path contains ".so." anywhere (not only in the basename). -/
theorem fileMode_follows_amended_policy (destPath : List Char) (mode : Nat) (isDir : Bool)
    (h : mode < 0o1000) :
    DetermineFileMode destPath mode isDir = specFileModeAmended destPath mode isDir := by
  unfold DetermineFileMode specFileModeAmended
  cases isDir with
  | true => rfl
  | false =>
    by_cases hx : mode &&& 0o111 ≠ 0
    · simp [hx, normalize_eq_specNormalize mode h hx]
    · simp [hx, execPath_eq, libPath_split]

theorem fileMode_follows_amended_policy_witness :
    (0o644 : Nat) < 0o1000 ∧
    DetermineFileMode "/lib/libm.so.6".toList 0o644 false =
      specFileModeAmended "/lib/libm.so.6".toList 0o644 false :=
  ⟨by decide, fileMode_follows_amended_policy "/lib/libm.so.6".toList 0o644 false (by decide)⟩

theorem normalize_noread : ∀ m < 512, m &&& 0o111 ≠ 0 → m &&& 0o444 = 0 →
    normalizeExecutableMode m = m &&& 0o222 := by
  decide

/-- C10 (counterexample): source mode 0311 carries execute bits and no
read bit in any class, yet the resolved mode is 0200 (the owner write bit
survives), not 0000 as the claim states. -/
theorem noread_mode_counterexample :
    DetermineFileMode "/etc/app".toList 0o311 false = 0o200 ∧
    DetermineFileMode "/etc/app".toList 0o311 false ≠ 0 := by
  refine ⟨by decide, by decide⟩

/-- C10 (amended): for a mapped regular file whose source mode has an
execute bit but no read bit in any class, the resolved mode keeps exactly
the write bits of the source mode (mode AND 0222) — in particular mode
0111 resolves to 0000 — regardless of the destination path. -/
theorem noread_mode_keeps_write_bits (path : List Char) (mode : Nat)
    (h1 : mode < 0o1000) (h2 : mode &&& 0o111 ≠ 0) (h3 : mode &&& 0o444 = 0) :
    DetermineFileMode path mode false = mode &&& 0o222 := by
  unfold DetermineFileMode
  simp [h2, normalize_noread mode h1 h2 h3]

theorem noread_mode_keeps_write_bits_witness :
    ((0o111 : Nat) < 0o1000 ∧ (0o111 : Nat) &&& 0o111 ≠ 0 ∧ (0o111 : Nat) &&& 0o444 = 0) ∧
    DetermineFileMode "/data/tool".toList 0o111 false = 0o111 &&& 0o222 :=
  ⟨⟨by decide, by decide, by decide⟩,
    noread_mode_keeps_write_bits "/data/tool".toList 0o111 (by decide) (by decide) (by decide)⟩

theorem copyEntriesGo_no_symlink :
    ∀ (fuel : Nat) (openf : List String → Option (List Nat)) (src dst : List String)
      (entries : List (String × FTree)) (effs : List Effect),
      copyEntriesGo openf fuel src dst entries = Except.ok effs →
      ∀ e ∈ effs, e.isSymlinkCreated = false := by
  intro fuel
  induction fuel with
  | zero =>
    intro openf src dst entries effs h
    simp [copyEntriesGo] at h
  | succ fuel ih =>
    intro openf src dst entries effs h
    match entries with
    | [] =>
      simp [copyEntriesGo] at h
      subst h
      simp
    | (name, t) :: rest =>
      cases t with
      | dir sub =>
        simp only [copyEntriesGo] at h
        cases hsub : copyEntriesGo openf fuel (src ++ [name]) (dst ++ [name]) sub with
        | error e => simp [hsub] at h
        | ok effs1 =>
          cases hrest : copyEntriesGo openf fuel src dst rest with
          | error e => simp [hsub, hrest] at h
          | ok effs2 =>
            simp [hsub, hrest] at h
            subst h
            intro e he
            simp only [List.mem_cons, List.mem_append] at he
            rcases he with h1 | h2 | h3
            · subst h1; rfl
            · exact ih openf (src ++ [name]) (dst ++ [name]) sub effs1 hsub e h2
            · exact ih openf src dst rest effs2 hrest e h3
      | file perm =>
        simp only [copyEntriesGo, CopyFile] at h
        cases hopen : openf (src ++ [name]) with
        | none => simp [hopen] at h
        | some data =>
          cases hrest : copyEntriesGo openf fuel src dst rest with
          | error e => simp [hopen, hrest] at h
          | ok effs2 =>
            simp [hopen, hrest] at h
            subst h
            intro e he
            simp only [List.cons_append, List.nil_append, List.mem_cons] at he
            rcases he with h1 | h2 | h3
            · subst h1; rfl
            · subst h2; rfl
            · exact ih openf src dst rest effs2 hrest e h3
      | symlink perm =>
        simp only [copyEntriesGo, CopyFile] at h
        cases hopen : openf (src ++ [name]) with
        | none => simp [hopen] at h
        | some data =>
          cases hrest : copyEntriesGo openf fuel src dst rest with
          | error e => simp [hopen, hrest] at h
          | ok effs2 =>
            simp [hopen, hrest] at h
            subst h
            intro e he
            simp only [List.cons_append, List.nil_append, List.mem_cons] at he
            rcases he with h1 | h2 | h3
            · subst h1; rfl
            · subst h2; rfl
            · exact ih openf src dst rest effs2 hrest e h3

theorem copyEntriesGo_symlink_contents :
    ∀ (fuel : Nat) (openf : List String → Option (List Nat)) (src dst : List String)
      (entries : List (String × FTree)) (effs : List Effect),
      copyEntriesGo openf fuel src dst entries = Except.ok effs →
      ∀ (name : String) (perm : Nat) (data : List Nat),
        (name, FTree.symlink perm) ∈ entries →
        openf (src ++ [name]) = some data →
        Effect.fileWritten (dst ++ [name]) data
          (DetermineFileMode (renderPath (dst ++ [name])) perm false) ∈ effs := by
  intro fuel
  induction fuel with
  | zero =>
    intro openf src dst entries effs h
    simp [copyEntriesGo] at h
  | succ fuel ih =>
    intro openf src dst entries effs h name perm data hmem hopen
    match entries with
    | [] => simp at hmem
    | (name0, t) :: rest =>
      rcases List.mem_cons.mp hmem with hhead | htail
      · have hn : name0 = name := congrArg Prod.fst hhead.symm
        have ht : t = FTree.symlink perm := congrArg Prod.snd hhead.symm
        subst hn; subst ht
        simp only [copyEntriesGo, CopyFile, hopen] at h
        cases hrest : copyEntriesGo openf fuel src dst rest with
        | error e => simp [hrest] at h
        | ok effs2 =>
          simp [hrest] at h
          subst h
          simp
      · cases t with
        | dir sub =>
          simp only [copyEntriesGo] at h
          cases hsub : copyEntriesGo openf fuel (src ++ [name0]) (dst ++ [name0]) sub with
          | error e => simp [hsub] at h
          | ok effs1 =>
            cases hrest : copyEntriesGo openf fuel src dst rest with
            | error e => simp [hsub, hrest] at h
            | ok effs2 =>
              simp [hsub, hrest] at h
              subst h
              have := ih openf src dst rest effs2 hrest name perm data htail hopen
              simp [List.mem_cons, List.mem_append, this]
        | file perm0 =>
          simp only [copyEntriesGo, CopyFile] at h
          cases hopen0 : openf (src ++ [name0]) with
          | none => simp [hopen0] at h
          | some data0 =>
            cases hrest : copyEntriesGo openf fuel src dst rest with
            | error e => simp [hopen0, hrest] at h
            | ok effs2 =>
              simp [hopen0, hrest] at h
              subst h
              have := ih openf src dst rest effs2 hrest name perm data htail hopen
              simp [List.mem_cons, this]
        | symlink perm0 =>
          simp only [copyEntriesGo, CopyFile] at h
          cases hopen0 : openf (src ++ [name0]) with
          | none => simp [hopen0] at h
          | some data0 =>
            cases hrest : copyEntriesGo openf fuel src dst rest with
            | error e => simp [hopen0, hrest] at h
            | ok effs2 =>
              simp [hopen0, hrest] at h
              subst h
              have := ih openf src dst rest effs2 hrest name perm data htail hopen
              simp [List.mem_cons, this]

/-- C1 (counterexample): mapping a directory containing one symlink named
link (target string file, resolving to bytes [7, 8]) produces a regular
file write at the destination and NO symlink creation — the claim's
expected symlink effect is absent from the output effects. -/
theorem copyDirectory_symlink_counterexample :
    CopyDirectory symOpen 5 ["s"] ["d"] symTree =
      Except.ok [Effect.mkdir ["d"], Effect.mkdir ["d"],
        Effect.fileWritten ["d", "link"] [7, 8] 0o777] ∧
    Effect.symlinkCreated ["d", "link"] "file" ∉
      [Effect.mkdir ["d"], Effect.mkdir ["d"],
       Effect.fileWritten ["d", "link"] [7, 8] 0o777] := by
  exact ⟨rfl, by decide⟩

/-- C1 (amended): applying a directory mapping never recreates a symlink:
no effect of CopyDirectory is a symlink creation, and each symlink entry is
dereferenced — the bytes of the file the symlink resolves to (via the OS
open) are written to a REGULAR file at the corresponding destination. -/
theorem copyDirectory_dereferences_symlinks
    (openf : List String → Option (List Nat)) (fuel : Nat) (src dst : List String)
    (entries : List (String × FTree)) (effs : List Effect)
    (h : CopyDirectory openf fuel src dst entries = Except.ok effs) :
    (∀ e ∈ effs, e.isSymlinkCreated = false) ∧
    (∀ (name : String) (perm : Nat) (data : List Nat),
      (name, FTree.symlink perm) ∈ entries →
      openf (src ++ [name]) = some data →
      Effect.fileWritten (dst ++ [name]) data
        (DetermineFileMode (renderPath (dst ++ [name])) perm false) ∈ effs) := by
  unfold CopyDirectory at h
  cases hgo : copyEntriesGo openf fuel src dst entries with
  | error e => simp [hgo] at h
  | ok effs0 =>
    simp [hgo] at h
    subst h
    constructor
    · intro e he
      rcases List.mem_cons.mp he with h1 | h2
      · subst h1; rfl
      · exact copyEntriesGo_no_symlink fuel openf src dst entries effs0 hgo e h2
    · intro name perm data hmem hopen
      exact List.mem_cons_of_mem _
        (copyEntriesGo_symlink_contents fuel openf src dst entries effs0 hgo
          name perm data hmem hopen)

theorem copyDirectory_dereferences_symlinks_witness :
    Effect.fileWritten ["d", "link"] [7, 8] 0o777 ∈
      [Effect.mkdir ["d"], Effect.mkdir ["d"],
       Effect.fileWritten ["d", "link"] [7, 8] 0o777] :=
  (copyDirectory_dereferences_symlinks symOpen 5 ["s"] ["d"] symTree
      [Effect.mkdir ["d"], Effect.mkdir ["d"],
       Effect.fileWritten ["d", "link"] [7, 8] 0o777] rfl).2
    "link" 0o777 [7, 8] (by simp [symTree]) (by rfl)

theorem applyAgentDefault_Strategy (cfg : Config) :
    (applyAgentDefault cfg).Strategy = cfg.Strategy := by
  unfold applyAgentDefault; split <;> rfl

theorem applyAgentDefault_Filesystem (cfg : Config) :
    (applyAgentDefault cfg).Filesystem = cfg.Filesystem := by
  unfold applyAgentDefault; split <;> rfl

theorem applyBusyboxDefaults_Strategy (cfg : Config) :
    (applyBusyboxDefaults cfg).Strategy = cfg.Strategy := by
  unfold applyBusyboxDefaults; split <;> rfl

theorem applyBusyboxDefaults_Filesystem (cfg : Config) :
    (applyBusyboxDefaults cfg).Filesystem = cfg.Filesystem := by
  unfold applyBusyboxDefaults; split <;> rfl

theorem applyFilesystemDefaults_Strategy (cfg : Config) :
    (applyFilesystemDefaults cfg).Strategy = cfg.Strategy := by
  unfold applyFilesystemDefaults
  split
  · cases cfg.Filesystem <;> rfl
  · rfl

theorem applyFilesystemDefaults_level (cfg : Config) (fs : FilesystemConfig)
    (hs : cfg.Strategy = "oci_rootfs")
    (hf : (applyFilesystemDefaults cfg).Filesystem = some fs)
    (ht : fs.FsType = "squashfs") : fs.CompressionLevel ≠ 0 := by
  unfold applyFilesystemDefaults at hf
  rw [if_pos hs] at hf
  cases hcf : cfg.Filesystem with
  | none =>
    rw [hcf] at hf
    simp only [Option.some_inj] at hf
    subst hf
    decide
  | some fs0 =>
    rw [hcf] at hf
    simp only [Option.some_inj] at hf
    subst hf
    simp only [DefaultFilesystemConfig] at ht ⊢
    by_cases h1 : fs0.FsType = "" <;>
    by_cases h2 : fs0.FsType = "squashfs" <;>
    by_cases h3 : fs0.CompressionLevel = 0 <;>
    by_cases h4 : fs0.OverlaySize = "" <;>
    by_cases h5 : fs0.SizeBufferMB = 0 <;>
    simp_all

theorem load_ok_level_range (cfg c : Config) (fs : FilesystemConfig)
    (hload : Load cfg = Except.ok c) (hstrat : c.Strategy = "oci_rootfs")
    (hfs : c.Filesystem = some fs) (htype : fs.FsType = "squashfs") :
    1 ≤ fs.CompressionLevel ∧ fs.CompressionLevel ≤ 22 := by
  have hc : c = applyDefaults cfg := by
    unfold Load at hload
    cases hv : Validate (applyDefaults cfg) with
    | error e => rw [hv] at hload; simp at hload
    | ok u => rw [hv] at hload; simp at hload; exact hload.symm
  have hval : Validate (applyDefaults cfg) = Except.ok () := by
    unfold Load at hload
    cases hv : Validate (applyDefaults cfg) with
    | error e => rw [hv] at hload; simp at hload
    | ok u => cases u; rfl
  subst hc
  have hne : fs.CompressionLevel ≠ 0 := by
    have hsB : (applyBusyboxDefaults (applyAgentDefault cfg)).Strategy = "oci_rootfs" := by
      have := applyFilesystemDefaults_Strategy (applyBusyboxDefaults (applyAgentDefault cfg))
      unfold applyDefaults at hstrat
      rw [this] at hstrat
      exact hstrat
    exact applyFilesystemDefaults_level (applyBusyboxDefaults (applyAgentDefault cfg)) fs hsB hfs htype
  have hoc : validateOCIRootfs (applyDefaults cfg) = Except.ok () := by
    unfold Validate at hval
    rw [if_pos hstrat] at hval
    split_ifs at hval
    cases ho : validateOCIRootfs (applyDefaults cfg) with
    | error e => rw [ho] at hval; simp at hval
    | ok u => cases u; rfl
  unfold validateOCIRootfs at hoc
  rw [hfs] at hoc
  dsimp only at hoc
  split_ifs at hoc with g1 g2 g3 g4 g5 g6
  have h7 : ¬ (fs.CompressionLevel < 0 ∨ fs.CompressionLevel > 22) := by
    intro hor
    exact g4 ⟨htype, hor⟩
  omega

/-- C4: for oci_rootfs + squashfs recipes, Load accepts written
compression levels 0 (stored as the default 15) and 22 (stored as 22) and
rejects -1 and 23; and every accepted oci_rootfs recipe whose stored
filesystem is squashfs ends up with a stored compression level in
[1, 22]. -/
theorem compression_level_boundaries :
    (Load (sqRecipe 0)).isOk = true ∧ loadedLevel (sqRecipe 0) = some 15 ∧
    (Load (sqRecipe 22)).isOk = true ∧ loadedLevel (sqRecipe 22) = some 22 ∧
    (Load (sqRecipe (-1))).isOk = false ∧
    (Load (sqRecipe 23)).isOk = false ∧
    (∀ (cfg c : Config) (fs : FilesystemConfig), Load cfg = Except.ok c →
      c.Strategy = "oci_rootfs" → c.Filesystem = some fs → fs.FsType = "squashfs" →
      1 ≤ fs.CompressionLevel ∧ fs.CompressionLevel ≤ 22) := by
  refine ⟨by decide, by decide, by decide, by decide, by decide, by decide, ?_⟩
  intro cfg c fs h1 h2 h3 h4
  exact load_ok_level_range cfg c fs h1 h2 h3 h4

theorem applyAgentDefault_Init (cfg : Config) :
    (applyAgentDefault cfg).Init = cfg.Init := by
  unfold applyAgentDefault; split <;> rfl

theorem applyBusyboxDefaults_Init (cfg : Config) :
    (applyBusyboxDefaults cfg).Init = cfg.Init := by
  unfold applyBusyboxDefaults; split <;> rfl

theorem applyFilesystemDefaults_Init (cfg : Config) :
    (applyFilesystemDefaults cfg).Init = cfg.Init := by
  unfold applyFilesystemDefaults
  split
  · cases cfg.Filesystem <;> rfl
  · rfl

theorem applyBusyboxDefaults_Agent (cfg : Config) :
    (applyBusyboxDefaults cfg).Agent = cfg.Agent := by
  unfold applyBusyboxDefaults; split <;> rfl

theorem applyFilesystemDefaults_Agent (cfg : Config) :
    (applyFilesystemDefaults cfg).Agent = cfg.Agent := by
  unfold applyFilesystemDefaults
  split
  · cases cfg.Filesystem <;> rfl
  · rfl

theorem applyAgentDefault_Agent_isSome (cfg : Config)
    (h : cfg.Agent.isSome = true) : (applyAgentDefault cfg).Agent.isSome = true := by
  unfold applyAgentDefault; split <;> simp_all

theorem validateInitramfs_agent_conflict (cfg : Config) (i : InitConfig)
    (hInit : cfg.Init = some i) (hd : i.None = true ∨ i.Path ≠ "")
    (ha : cfg.Agent.isSome = true) :
    (validateInitramfs cfg).isOk = false := by
  unfold validateInitramfs validateInitConfig getInitMode
  rw [hInit]
  cases hA : cfg.Agent with
  | none => rw [hA] at ha; simp at ha
  | some a =>
    by_cases hN : i.None <;> by_cases hP : i.Path = "" <;> simp_all <;> try rfl

theorem validateInitramfs_default_noagent (cfg : Config)
    (hm : getInitMode cfg = "default") (hA : cfg.Agent = none) :
    validateInitramfs cfg = Except.error "agent section is required for default init mode" := by
  unfold validateInitramfs validateInitConfig
  cases hI : cfg.Init with
  | none => simp [hm, hA]
  | some i =>
    have hmode := hm
    unfold getInitMode at hmode
    rw [hI] at hmode
    dsimp only at hmode
    by_cases hN : i.None
    · rw [if_pos hN] at hmode; simp at hmode
    · by_cases hP : i.Path = ""
      · simp [hN, hP, hm, hA]
      · rw [if_neg hN, if_pos hP] at hmode; simp at hmode

/-- C5: for an initramfs recipe whose init section sets none = true or a
non-empty path, the presence of any agent section makes Load fail with a
configuration error; and for a config in default init mode (as validation
sees it, after defaulting), the absence of an agent section makes the
validation step fail.  Concrete boundary instances lead the statement. -/
theorem init_agent_exclusion :
    (Load customInitAgentRecipe).isOk = false ∧
    (Load noneInitAgentRecipe).isOk = false ∧
    (Validate defaultNoAgentConfig).isOk = false ∧
    (∀ (cfg : Config) (i : InitConfig), cfg.Strategy = "initramfs" → cfg.Init = some i →
      (i.None = true ∨ i.Path ≠ "") → cfg.Agent.isSome = true →
      (Load cfg).isOk = false) ∧
    (∀ cfg : Config, cfg.Strategy = "initramfs" → getInitMode cfg = "default" →
      cfg.Agent = none → (Validate cfg).isOk = false) := by
  refine ⟨by decide, by decide, by decide, ?_, ?_⟩
  · intro cfg i hs hi hd ha
    unfold Load
    cases hv : Validate (applyDefaults cfg) with
    | error e => rfl
    | ok u =>
      exfalso
      have hIA : (applyDefaults cfg).Init = some i := by
        unfold applyDefaults
        rw [applyFilesystemDefaults_Init, applyBusyboxDefaults_Init,
          applyAgentDefault_Init, hi]
      have haA : (applyDefaults cfg).Agent.isSome = true := by
        unfold applyDefaults
        rw [applyFilesystemDefaults_Agent, applyBusyboxDefaults_Agent]
        exact applyAgentDefault_Agent_isSome cfg ha
      have hsA : (applyDefaults cfg).Strategy = "initramfs" := by
        unfold applyDefaults
        rw [applyFilesystemDefaults_Strategy, applyBusyboxDefaults_Strategy,
          applyAgentDefault_Strategy]
        exact hs
      have hVI := validateInitramfs_agent_conflict (applyDefaults cfg) i hIA hd haA
      unfold Validate at hv
      rw [if_neg (show ¬(applyDefaults cfg).Strategy = "oci_rootfs" by
        rw [hsA]; decide)] at hv
      rw [if_pos hsA] at hv
      split_ifs at hv
      cases hE : validateInitramfs (applyDefaults cfg) with
      | error e2 => rw [hE] at hv; exact Except.noConfusion hv
      | ok u2 => rw [hE] at hVI; exact Bool.noConfusion hVI
  · intro cfg hs hm hA
    have hVI := validateInitramfs_default_noagent cfg hm hA
    unfold Validate
    rw [if_neg (show ¬cfg.Strategy = "oci_rootfs" by rw [hs]; decide)]
    rw [if_pos hs, hVI]
    split_ifs <;> rfl

/-- C6: the legacy block-image buffer is size_buffer_mb when positive and
otherwise max(64, min(1024, rootfs_KB / 1024 / 4)); the allocated image is
always rootfs_KB + buffer × 1024 kilobytes, i.e. that times 1024 bytes, on
both the preallocated and the sparse path.  A concrete instance (a 40 MiB
rootfs under the tiered policy) leads the statement. -/
theorem buffer_policy_and_allocation :
    computeBufferMB 0 40960 = 64 ∧
    allocatedImageBytes false 0 40960 = (40960 + 64 * 1024) * 1024 ∧
    (∀ (sizeBufferMB : Int) (rootfsKB : Nat),
      (sizeBufferMB > 0 → computeBufferMB sizeBufferMB rootfsKB = sizeBufferMB.toNat) ∧
      (¬ sizeBufferMB > 0 → computeBufferMB sizeBufferMB rootfsKB =
        max 64 (min 1024 (rootfsKB / 1024 / 4))) ∧
      (∀ preallocate : Bool, allocatedImageBytes preallocate sizeBufferMB rootfsKB =
        (rootfsKB + computeBufferMB sizeBufferMB rootfsKB * 1024) * 1024)) := by
  refine ⟨by decide, by decide, ?_⟩
  intro sizeBufferMB rootfsKB
  refine ⟨?_, ?_, ?_⟩
  · intro h
    unfold computeBufferMB
    rw [if_pos h]
  · intro h
    unfold computeBufferMB
    rw [if_neg h]
    dsimp only
    split_ifs <;> omega
  · intro preallocate
    unfold allocatedImageBytes totalSizeKB
    cases preallocate <;> rfl

theorem computeBufferMB_pos (sizeBufferMB : Int) (rootfsKB : Nat) :
    1 ≤ computeBufferMB sizeBufferMB rootfsKB := by
  unfold computeBufferMB
  dsimp only
  split_ifs <;> omega

/-- C7: with a positive block size of at most 1 MiB, the ext4 shrink step
resizes exactly to T = min(current, minimum + buffer_MB × 1024 × 1024 /
block_size) (integer division, buffer recomputed by the tiered policy),
issues the resize only when T is strictly below the current block count,
and truncates the backing file to exactly T × block_size bytes. -/
theorem shrink_target_formula (sizeBufferMB : Int)
    (rootfsKB curBlocks blockSize minBlocks : Nat)
    (hB1 : 1 ≤ blockSize) (hB2 : blockSize ≤ 1024 * 1024) :
    (shrinkFilesystem sizeBufferMB rootfsKB curBlocks blockSize minBlocks).truncateTo =
      min curBlocks (minBlocks + computeBufferMB sizeBufferMB rootfsKB * 1024 * 1024 / blockSize)
        * blockSize ∧
    (shrinkFilesystem sizeBufferMB rootfsKB curBlocks blockSize minBlocks).resizeTo =
      (if min curBlocks (minBlocks + computeBufferMB sizeBufferMB rootfsKB * 1024 * 1024 / blockSize)
          < curBlocks then
        some (min curBlocks
          (minBlocks + computeBufferMB sizeBufferMB rootfsKB * 1024 * 1024 / blockSize))
      else none) := by
  unfold shrinkFilesystem
  dsimp only
  have h2 : 1 ≤ computeBufferMB sizeBufferMB rootfsKB * 1024 * 1024 / blockSize := by
    rw [Nat.one_le_div_iff (by omega : 0 < blockSize)]
    have h1 := computeBufferMB_pos sizeBufferMB rootfsKB
    omega
  rw [if_neg (by omega : ¬ computeBufferMB sizeBufferMB rootfsKB * 1024 * 1024 / blockSize < 1)]
  have h3 : (if minBlocks + computeBufferMB sizeBufferMB rootfsKB * 1024 * 1024 / blockSize
        > curBlocks then curBlocks
      else minBlocks + computeBufferMB sizeBufferMB rootfsKB * 1024 * 1024 / blockSize) =
      min curBlocks (minBlocks + computeBufferMB sizeBufferMB rootfsKB * 1024 * 1024 / blockSize) := by
    split_ifs <;> omega
  rw [h3]
  exact ⟨rfl, rfl⟩

theorem shrink_target_formula_witness :
    ((1 : Nat) ≤ 4096 ∧ (4096 : Nat) ≤ 1024 * 1024) ∧
    (shrinkFilesystem 0 40960 50000 4096 10000).truncateTo =
      min 50000 (10000 + computeBufferMB 0 40960 * 1024 * 1024 / 4096) * 4096 ∧
    (shrinkFilesystem 0 40960 50000 4096 10000).resizeTo =
      (if min 50000 (10000 + computeBufferMB 0 40960 * 1024 * 1024 / 4096) < 50000 then
        some (min 50000 (10000 + computeBufferMB 0 40960 * 1024 * 1024 / 4096))
      else none) :=
  ⟨⟨by decide, by decide⟩,
    shrink_target_formula 0 40960 50000 4096 10000 (by decide) (by decide)⟩

theorem dropCommon_base_nil (base : List String) :
    ∀ target : List String, (dropCommon base target).1 = [] →
      ∃ rest, target = base ++ rest := by
  induction base with
  | nil => intro target _; exact ⟨target, rfl⟩
  | cons a as ih =>
    intro target h
    cases target with
    | nil => simp [dropCommon] at h
    | cons b bs =>
      by_cases hab : a = b
      · subst hab
        rw [dropCommon, if_pos rfl] at h
        obtain ⟨rest, hr⟩ := ih bs h
        exact ⟨rest, by rw [hr]; rfl⟩
      · rw [dropCommon, if_neg hab] at h
        simp at h

/-- C8: installing the agent through a symlinked /bin: when the lexically
resolved target of the symlink stays inside the rootfs, ensureDestDir
creates exactly the real target directory (a path extending the rootfs
path) and succeeds; when the resolved target escapes the rootfs,
ensureDestDir fails with the unsafe-symlink error and performs no
directory creation at all. -/
theorem ensureDestDir_symlink_safety (rootfsPath : List String) (target : String) :
    (relOutside rootfsPath
        (resolveSymlinkTarget rootfsPath (rootfsPath ++ ["bin"]) target) = false →
      ensureDestDir rootfsPath (rootfsPath ++ ["bin"]) (LstatResult.symlinkTo target) =
        Except.ok [DirEffect.mkdirAll
          (resolveSymlinkTarget rootfsPath (rootfsPath ++ ["bin"]) target)] ∧
      ∃ rest, resolveSymlinkTarget rootfsPath (rootfsPath ++ ["bin"]) target =
        rootfsPath ++ rest) ∧
    (relOutside rootfsPath
        (resolveSymlinkTarget rootfsPath (rootfsPath ++ ["bin"]) target) = true →
      ensureDestDir rootfsPath (rootfsPath ++ ["bin"]) (LstatResult.symlinkTo target) =
        Except.error "symlink points outside rootfs") := by
  constructor
  · intro hin
    constructor
    · unfold ensureDestDir
      dsimp only
      rw [if_neg (by rw [hin]; exact Bool.false_ne_true)]
    · have h0 : (dropCommon rootfsPath
          (resolveSymlinkTarget rootfsPath (rootfsPath ++ ["bin"]) target)).1 = [] := by
        have := hin
        unfold relOutside at this
        simpa using this
      exact dropCommon_base_nil rootfsPath _ h0
  · intro hout
    unfold ensureDestDir
    dsimp only
    rw [if_pos hout]

theorem ensureDestDir_symlink_safety_witness :
    (ensureDestDir ["tmp", "rootfs"] (["tmp", "rootfs"] ++ ["bin"])
        (LstatResult.symlinkTo "/usr/bin") =
      Except.ok [DirEffect.mkdirAll ["tmp", "rootfs", "usr", "bin"]] ∧
     ∃ rest, resolveSymlinkTarget ["tmp", "rootfs"] (["tmp", "rootfs"] ++ ["bin"]) "/usr/bin" =
       ["tmp", "rootfs"] ++ rest) ∧
    ensureDestDir ["tmp", "rootfs"] (["tmp", "rootfs"] ++ ["bin"])
        (LstatResult.symlinkTo "../../etc") =
      Except.error "symlink points outside rootfs" :=
  ⟨(ensureDestDir_symlink_safety ["tmp", "rootfs"] "/usr/bin").1 (by decide),
   (ensureDestDir_symlink_safety ["tmp", "rootfs"] "../../etc").2 (by decide)⟩

theorem fsRead_mappings_skip (key : String) :
    ∀ (post : List (String × List Nat)) (s : List (String × List Nat)),
      (∀ m ∈ post, trimLeadingSlash m.1 ≠ key) →
      fsRead (ApplyFileMappings s post) key = fsRead s key := by
  intro post
  induction post with
  | nil => intro s _; rfl
  | cons m rest ih =>
    intro s h
    have hm : trimLeadingSlash m.1 ≠ key := h m (List.mem_cons_self m rest)
    have hrest : ∀ m2 ∈ rest, trimLeadingSlash m2.1 ≠ key :=
      fun m2 hm2 => h m2 (List.mem_cons_of_mem m hm2)
    show fsRead (ApplyFileMappings (fsWrite s (trimLeadingSlash m.1) m.2) rest) key = fsRead s key
    rw [ih (fsWrite s (trimLeadingSlash m.1) m.2) hrest]
    unfold fsRead fsWrite
    rw [List.find?]
    simp [hm]

/-- C9: in a default-init-mode initramfs build, the user mappings are
applied after the embedded C init is compiled to /init and the agent is
installed, so a mapping whose destination is /init (the last such mapping,
in application order) leaves its own source bytes — not the compiled
init — as the final rootfs /init contents. -/
theorem default_init_mapping_overwrites
    (compiledInit agentBytes busyboxBytes b : List Nat)
    (ms pre post : List (String × List Nat)) (d : String)
    (hms : ms = pre ++ (d, b) :: post)
    (hd : trimLeadingSlash d = "init")
    (hpost : ∀ m ∈ post, trimLeadingSlash m.1 ≠ "init") :
    fsRead (InitramfsBuild "default" compiledInit [] agentBytes busyboxBytes ms) "init"
      = some b := by
  subst hms
  unfold InitramfsBuild ApplyFileMappings
  dsimp only
  rw [if_pos (rfl : ("default" : String) = "default")]
  rw [List.foldl_append]
  rw [List.foldl_cons]
  dsimp only
  have := fsRead_mappings_skip "init" post
    (fsWrite (List.foldl (fun s m => fsWrite s (trimLeadingSlash m.1) m.2)
      (fsWrite (fsWrite (fsWrite [] "init" compiledInit) "bin/kestrel" agentBytes)
        "bin/busybox" busyboxBytes) pre) (trimLeadingSlash d) b) hpost
  unfold ApplyFileMappings at this
  rw [this]
  unfold fsRead fsWrite
  rw [hd]
  rw [List.find?]
  simp

theorem default_init_mapping_overwrites_witness :
    fsRead (InitramfsBuild "default" [1] [] [5] [6] [("/init", [9])]) "init" = some [9] :=
  default_init_mapping_overwrites [1] [5] [6] [9] [("/init", [9])] [] [] "/init"
    rfl (by rfl) (by intro m hm; simp at hm)

/-- C3: the archive step is not a function of the declared inputs alone:
two runs whose recipe-determined member fields coincide exactly (same
name, mode, normalized mtime, contents) but whose scratch files received
different inode numbers produce different newc byte streams, and hence
different outputs through any injective (lossless) compressor such as
gzip -n -9. -/
theorem cpio_ino_nondeterminism :
    ((initEntry 100).name = (initEntry 200).name ∧
     (initEntry 100).mode = (initEntry 200).mode ∧
     (initEntry 100).mtime = (initEntry 200).mtime ∧
     (initEntry 100).data = (initEntry 200).data ∧
     (initEntry 100).mtime = ReproducibleEpoch) ∧
    cpioArchive [initEntry 100] ≠ cpioArchive [initEntry 200] ∧
    (∀ gz : List Nat → List Nat, Function.Injective gz →
      gz (cpioArchive [initEntry 100]) ≠ gz (cpioArchive [initEntry 200])) := by
  refine ⟨⟨rfl, rfl, rfl, rfl, rfl⟩, by decide, ?_⟩
  intro gz hinj heq
  exact absurd (hinj heq) (by decide)
